import Mathlib

/-!
Verification of the debounced file-watch-and-restart supervisor implemented in
demo-editing/hot_reload_server.py (classes HotReloadHandler and
GradioServerManager).

Modelling conventions:
* Time is measured in tenths of a second, as an integer.  All timing constants
  of the script are whole numbers of deciseconds: the 2.0 s debounce delay is
  20, the 5 s graceful-terminate timeout is 50, the 2 s settle sleep is 20,
  the 3 s startup grace sleep is 30, the 3 s retry backoff is 30, and the 1 s
  pending-restart reset sleep is 10.
* Paths are Lean strings; the Python tests path.endswith(suf) and
  pat in path are suffix and infix tests on the underlying character lists.
* OS processes spawned by the manager are tracked in a list of Proc records
  carrying a pid and a liveness flag; the process field of the manager holds
  the pid of the handle currently stored in self.process.
-/

set_option autoImplicit false

namespace HotReload

/-- Suffix test on strings, the Python expression path.endswith(suf). -/
def strEndsWith (s suf : String) : Bool := suf.data.isSuffixOf s.data

/-- Infix test on character lists, used for the Python expression pat in s. -/
def hasSubCL (s pat : List Char) : Bool :=
  match s with
  | [] => pat.isEmpty
  | _ :: t => pat.isPrefixOf s || hasSubCL t pat

/-- Substring containment on strings, the Python expression pat in s. -/
def strHasSub (s pat : String) : Bool := hasSubCL s.data pat.data

/-- A watchdog file-system event as consumed by HotReloadHandler:
the source path and whether the event concerns a directory. -/
structure ChangeEvent where
  src_path : String
  is_directory : Bool
deriving DecidableEq

/-- The mutable fields of HotReloadHandler (set in its constructor):
last_reload, the time of the last accepted event, and pending_restart,
the in-flight-restart flag. -/
structure HandlerState where
  last_reload : ℤ
  pending_restart : Bool
deriving DecidableEq

/-- HotReloadHandler.reload_delay: the 2.0 s debounce interval. -/
def reload_delay : ℤ := 20

/-- What HotReloadHandler._handle_file_change does with one event:
which early return (if any) is taken, or whether the event is accepted
and a restart is triggered. -/
inductive Disposition
  /-- Early return on event.is_directory. -/
  | ignoredDirectory
  /-- Early return because the path ends in neither watched extension. -/
  | ignoredExtension
  /-- Early return on the pycache / compiled-artifact filter. -/
  | ignoredExcluded
  /-- Early return because the event is inside the debounce interval. -/
  | droppedDebounce
  /-- Early return that prints the additional-change message while a
  restart is pending. -/
  | loggedPending
  /-- The event is accepted: the clock resets and a restart is triggered. -/
  | accepted
deriving DecidableEq

/-- The extension filter of _handle_file_change line 41: the path must end
in .py or .css. -/
def watchedExtension (path : String) : Bool :=
  strEndsWith path ".py" || strEndsWith path ".css"

/-- The exclusion filter of _handle_file_change line 45: paths containing
a pycache segment or ending in .pyc are skipped. -/
def excludedPath (path : String) : Bool :=
  strHasSub path "__pycache__" || strEndsWith path ".pyc"

/-- HotReloadHandler._handle_file_change, lines 35-75, as a function of the
handler state, the event and the value read from time.time().  The returned
disposition records which branch ran; the returned state holds the updated
last_reload and pending_restart fields.  In the accepted branch the source
sets last_reload and pending_restart (lines 58-59) before it calls
self.server_manager.restart_server() (line 69), so the returned state is
the one the restart already sees. -/
def handle_file_change (s : HandlerState) (e : ChangeEvent) (current_time : ℤ) :
    HandlerState × Disposition :=
  if e.is_directory then (s, .ignoredDirectory)
  else if !(watchedExtension e.src_path) then (s, .ignoredExtension)
  else if excludedPath e.src_path then (s, .ignoredExcluded)
  else if current_time - s.last_reload < reload_delay then (s, .droppedDebounce)
  else if s.pending_restart then (s, .loggedPending)
  else ({ last_reload := current_time, pending_restart := true }, .accepted)

/-- A guard of the dispatch order: reads the state, the event and the
current time and says whether its early return fires. -/
abbrev Check := HandlerState → ChangeEvent → ℤ → Bool

/-- Guard (1): directory events are ignored. -/
def dirCheck : Check := fun _ e _ => e.is_directory

/-- Guard (2): events without a recognized extension are ignored. -/
def extCheck : Check := fun _ e _ => !(watchedExtension e.src_path)

/-- Guard (3): events matching the compiled-artifact exclusion are ignored. -/
def exclCheck : Check := fun _ e _ => excludedPath e.src_path

/-- Guard for the pending-restart branch: the event is logged only. -/
def pendingCheck : Check := fun s _ _ => s.pending_restart

/-- Guard for the debounce branch: the event falls inside the interval. -/
def debounceCheck : Check := fun s _ t => decide (t - s.last_reload < reload_delay)

/-- First-matching-guard dispatch: the disposition of the first guard that
fires, with the accepted branch (clock reset, pending flag set, restart
triggered) when none fires. -/
def dispatchWith (checks : List (Check × Disposition)) (s : HandlerState)
    (e : ChangeEvent) (t : ℤ) : HandlerState × Disposition :=
  match checks.find? (fun c => c.1 s e t) with
  | some c => (s, c.2)
  | none => ({ last_reload := t, pending_restart := true }, .accepted)

/-- The check order asserted by the specification: directory, extension,
exclusion, then pending-restart, then debounce. -/
def claimedCheckOrder : List (Check × Disposition) :=
  [(dirCheck, .ignoredDirectory), (extCheck, .ignoredExtension),
   (exclCheck, .ignoredExcluded), (pendingCheck, .loggedPending),
   (debounceCheck, .droppedDebounce)]

/-- The check order the source applies: directory, extension, exclusion,
then debounce (line 49), then pending-restart (line 53). -/
def sourceCheckOrder : List (Check × Disposition) :=
  [(dirCheck, .ignoredDirectory), (extCheck, .ignoredExtension),
   (exclCheck, .ignoredExcluded), (debounceCheck, .droppedDebounce),
   (pendingCheck, .loggedPending)]

theorem handle_file_change_eq_dispatch (s : HandlerState) (e : ChangeEvent) (t : ℤ) :
    handle_file_change s e t = dispatchWith sourceCheckOrder s e t := by
  rcases e with ⟨p, d⟩
  rcases s with ⟨lr, pend⟩
  simp only [handle_file_change, dispatchWith, sourceCheckOrder, List.find?,
    dirCheck, extCheck, exclCheck, pendingCheck, debounceCheck]
  rcases d <;> rcases h1 : watchedExtension p <;> rcases h2 : excludedPath p <;>
    rcases pend <;> rcases h3 : decide (t - lr < reload_delay) <;>
    simp_all

/-- An OS process spawned by the manager: its pid and whether it is
still alive. -/
structure Proc where
  pid : ℕ
  alive : Bool
deriving DecidableEq

/-- How one launch (the Popen call of start_server plus the 3 s grace
sleep and the poll) turns out. -/
inductive LaunchOutcome
  /-- Popen succeeds and the process is still alive after the grace sleep. -/
  | ok
  /-- Popen succeeds but the process exits within the grace window, so
  poll() reports an exit code. -/
  | exitsEarly
  /-- Popen itself raises; the except clause of start_server catches it. -/
  | popenRaises
deriving DecidableEq

/-- The mutable fields of GradioServerManager (constructor lines 89-93)
together with the list of OS processes the manager has spawned.  The
process field holds the pid of the handle stored in self.process; next_pid
feeds fresh pids to launches, so distinct launches yield distinct pids. -/
structure MgrState where
  os_procs : List Proc
  process : Option ℕ
  retry_count : ℕ
  next_pid : ℕ
deriving DecidableEq

/-- GradioServerManager.max_retries. -/
def max_retries : ℕ := 3

/-- GradioServerManager state as built by its constructor. -/
def init_mgr : MgrState := ⟨[], none, 0, 0⟩

/-- HotReloadHandler state as built by its constructor: last_reload = 0
and no pending restart. -/
def init_handler : HandlerState := ⟨0, false⟩

/-- The Popen.poll() liveness question for a pid: is some spawned process
with this pid still alive?  Pids are issued freshly from next_pid, so at
most one spawned process carries a given pid. -/
def poll_alive (s : MgrState) (pid : ℕ) : Bool :=
  s.os_procs.any (fun p => p.pid == pid && p.alive)

/-- The effect on the OS process list of terminating (or force killing)
the process with the given pid. -/
def mark_dead (pid : ℕ) (ps : List Proc) : List Proc :=
  ps.map (fun p => if p.pid == pid then { p with alive := false } else p)

/-- GradioServerManager.kill_current_process, lines 150-164: if a handle
exists and polls alive, terminate it, escalating to a forced kill when the
graceful wait times out; both paths leave the process dead.  With no
handle or a dead handle this is a no-op. -/
def kill_current_process (s : MgrState) : MgrState :=
  match s.process with
  | none => s
  | some pid =>
      if poll_alive s pid then { s with os_procs := mark_dead pid s.os_procs } else s

/-- GradioServerManager.start_server, lines 95-131, for one launch outcome.
The kill_process_on_port preamble only affects processes outside the
os_procs list (stale processes of earlier supervisor runs), so it is the
identity here.  On a successful launch the new process is recorded, the
handle moves to it and retry_count resets to 0 (line 123); when the process
exits within the grace window the dead process is still recorded and the
handle still moves (self.process was assigned at line 106); when Popen
raises, the except clause leaves every field unchanged and returns False. -/
def start_server (o : LaunchOutcome) (s : MgrState) : MgrState × Bool :=
  match o with
  | .popenRaises => (s, false)
  | .exitsEarly =>
      ({ s with os_procs := s.os_procs ++ [⟨s.next_pid, false⟩],
                process := some s.next_pid,
                next_pid := s.next_pid + 1 }, false)
  | .ok =>
      ({ s with os_procs := s.os_procs ++ [⟨s.next_pid, true⟩],
                process := some s.next_pid,
                next_pid := s.next_pid + 1,
                retry_count := 0 }, true)

/-- One launch attempt of a restart, as recorded for the proofs: the
manager state on entry, the state after kill_current_process (the state
the launch itself runs from, the settle sleep changing nothing), and the
launch outcome. -/
structure AttemptInfo where
  preKill : MgrState
  preLaunch : MgrState
  outcome : LaunchOutcome
deriving DecidableEq

/-- Overall result of restart_server. -/
inductive RestartResult
  | success
  | abandoned
deriving DecidableEq

/-- Peels the next launch outcome off the environment list, defaulting to
a successful launch when the list is exhausted. -/
def nextOutcome : List LaunchOutcome → LaunchOutcome × List LaunchOutcome
  | [] => (.ok, [])
  | o :: rest => (o, rest)

/-- GradioServerManager.restart_server together with
handle_restart_failure, lines 133-148 and 193-202, with explicit fuel.
One call: kill the current process, sleep the 2 s settle, start_server;
on success done, otherwise handle_restart_failure increments retry_count
and either retries (when still below max_retries) after the 3 s backoff or
abandons, logging the max-retries message and resetting retry_count to 0.
The fuel-0 branch mirrors the abandon branch; restart_server passes fuel
max_retries - retry_count, which the fuel lemmas show is never exhausted
ahead of the retry_count test. -/
def restartAux : ℕ → List LaunchOutcome → MgrState →
    MgrState × RestartResult × List AttemptInfo
  | 0, _, s => ({ s with retry_count := 0 }, .abandoned, [])
  | fuel + 1, outs, s =>
    let s1 := kill_current_process s
    let o := (nextOutcome outs).1
    let rest := (nextOutcome outs).2
    let s2 := (start_server o s1).1
    if (start_server o s1).2 then (s2, .success, [⟨s, s1, o⟩])
    else
      let s3 := { s2 with retry_count := s2.retry_count + 1 }
      if s3.retry_count < max_retries then
        let r := restartAux fuel rest s3
        (r.1, r.2.1, ⟨s, s1, o⟩ :: r.2.2)
      else ({ s3 with retry_count := 0 }, .abandoned, [⟨s, s1, o⟩])

/-- GradioServerManager.restart_server, entry point. -/
def restart_server (outs : List LaunchOutcome) (s : MgrState) :
    MgrState × RestartResult × List AttemptInfo :=
  restartAux (max_retries - s.retry_count) outs s

/-- GradioServerManager.stop_server, lines 204-208: prints and kills the
current process. -/
def stop_server (s : MgrState) : MgrState := kill_current_process s

/-- Result of the startup path of main, lines 244-263. -/
inductive MainStartResult
  /-- start_server returned True; main keeps the watcher loop running. -/
  | running
  /-- start_server returned False; main prints the failure and returns
  the exit code. -/
  | failedExit (code : ℕ)
deriving DecidableEq

/-- The startup path of main, lines 244-257: one start_server call on the
freshly constructed manager; on False it returns exit code 1 with no
retry. -/
def main_startup (o : LaunchOutcome) : MgrState × MainStartResult :=
  let r := start_server o init_mgr
  if r.2 then (r.1, .running) else (r.1, .failedExit 1)

/-- The spawned processes still alive. -/
def liveProcs (s : MgrState) : List Proc := s.os_procs.filter (fun p => p.alive)

/-- How many spawned processes are still alive. -/
def liveCount (s : MgrState) : ℕ := (liveProcs s).length

/-- The manager invariant: every live spawned process is the one the
handle points to, and at most one spawned process is alive. -/
def Inv (s : MgrState) : Prop :=
  (∀ p ∈ s.os_procs, p.alive = true → s.process = some p.pid) ∧ liveCount s ≤ 1

instance (s : MgrState) : Decidable (Inv s) := by
  unfold Inv; infer_instance

/-- No spawned process is alive. -/
def AllDead (s : MgrState) : Prop := ∀ p ∈ s.os_procs, p.alive = false

instance (s : MgrState) : Decidable (AllDead s) := by
  unfold AllDead; infer_instance

/-! Timing model.  Durations mirror the sleeps and waits of the script;
the unit is a tenth of a second. -/

/-- The timeout of self.process.wait(timeout=5) in kill_current_process. -/
def graceful_timeout : ℤ := 50

/-- The time.sleep(2) of restart_server line 141. -/
def settle_delay : ℤ := 20

/-- The time.sleep(3) startup grace of start_server line 119. -/
def startup_grace : ℤ := 30

/-- The time.sleep(3) backoff of handle_restart_failure line 198. -/
def retry_backoff : ℤ := 30

/-- The time.sleep(1) of reset_pending, lines 72-74. -/
def pending_reset_delay : ℤ := 10

/-- How the current process reacts to the graceful terminate signal:
some d means it exits d after receiving it, none means it never exits
on its own and must be force killed. -/
def TermBehavior : Type := Option ℤ

/-- A behavior is well formed when the exit delay is not negative. -/
def wfTerm : TermBehavior → Bool
  | some d => decide (0 ≤ d)
  | none => true

/-- How long kill_current_process runs: nothing when there is no live
handle; otherwise the graceful wait returns as soon as the process exits,
and after graceful_timeout the TimeoutExpired clause force kills, which
completes at once. -/
def kill_duration (s : MgrState) (g : TermBehavior) : ℤ :=
  match s.process with
  | none => 0
  | some pid =>
      if poll_alive s pid then
        match g with
        | some d => if d ≤ graceful_timeout then d else graceful_timeout
        | none => graceful_timeout
      else 0

/-- Whether kill_current_process reaches the TimeoutExpired clause and
issues the forced kill: only when a live handle ignores the graceful
signal for the whole timeout. -/
def force_kill_used (s : MgrState) (g : TermBehavior) : Bool :=
  match s.process with
  | none => false
  | some pid =>
      poll_alive s pid &&
        match g with
        | some d => decide (graceful_timeout < d)
        | none => true

/-- Total running time of a restart, from its recorded attempts: per
attempt the kill, the 2 s settle sleep and the 3 s grace sleep, plus the
3 s backoff before each retry. -/
def attemptsDuration (g : TermBehavior) : List AttemptInfo → ℤ
  | [] => 0
  | a :: rest =>
      kill_duration a.preKill g + settle_delay + startup_grace +
        (if rest.isEmpty then 0 else retry_backoff) + attemptsDuration g rest

/-! The combined machine: handler plus manager.  The reset_pending thread
started at line 75 sleeps one second after restart_server returns and then
clears pending_restart; the model keeps its firing time in
pending_clear_at and fires it, as the thread scheduler would, before the
next event is handled. -/

/-- The whole supervisor state: handler fields, manager fields, and the
firing time of the armed reset_pending thread, if one is armed. -/
structure SysState where
  handler : HandlerState
  mgr : MgrState
  pending_clear_at : Option ℤ
deriving DecidableEq

/-- Fires the reset_pending thread when its firing time has arrived:
pending_restart becomes False and the timer is disarmed.  The thread is
independent of any event; it only reads the clock. -/
def fire_pending_timer (s : SysState) (now : ℤ) : SysState :=
  match s.pending_clear_at with
  | some ts =>
      if ts ≤ now then
        { s with handler := { s.handler with pending_restart := false },
                 pending_clear_at := none }
      else s
  | none => s

/-- One delivery of a change event to the handler (on_modified, on_created
and on_moved all forward to _handle_file_change): any due reset_pending
thread fires first, then _handle_file_change runs at the current time; if
it accepts, restart_server runs with the given launch outcomes and the
reset_pending thread is armed one second after the restart returns. -/
def onChange (s : SysState) (e : ChangeEvent) (now : ℤ)
    (outs : List LaunchOutcome) (g : TermBehavior) : SysState × Disposition :=
  let s0 := fire_pending_timer s now
  let h := handle_file_change s0.handler e now
  if h.2 = .accepted then
    let r := restart_server outs s0.mgr
    ({ handler := h.1, mgr := r.1,
       pending_clear_at := some (now + attemptsDuration g r.2.2 + pending_reset_delay) },
     h.2)
  else ({ s0 with handler := h.1 }, h.2)

/-- The operations a run of the supervisor is made of. -/
inductive SysOp
  /-- A change event delivered at the given clock time, with the launch
  outcomes and termination behavior the OS would supply to a restart. -/
  | change (e : ChangeEvent) (now : ℤ) (outs : List LaunchOutcome) (g : TermBehavior)
  /-- A stop_server call. -/
  | stop

/-- One supervisor step. -/
def sysStep (s : SysState) : SysOp → SysState
  | .change e now outs g => (onChange s e now outs g).1
  | .stop => { s with mgr := stop_server s.mgr }

/-- A run: the supervisor state after a sequence of operations. -/
def runOps (s : SysState) (ops : List SysOp) : SysState := ops.foldl sysStep s

/-- The supervisor state right after main has constructed the handler and
the manager and run the startup start_server call. -/
def mainInit (o : LaunchOutcome) : SysState :=
  { handler := init_handler, mgr := (start_server o init_mgr).1,
    pending_clear_at := none }

/-- An event the filters let through: a file event with a watched
extension and no exclusion marker. -/
def eligible (e : ChangeEvent) : Bool :=
  !e.is_directory && watchedExtension e.src_path && !(excludedPath e.src_path)

/-- The per-event inputs of a change run: the event, its processing time
and the launch outcomes and termination behavior for a restart it may
trigger. -/
structure ChangeIn where
  ev : ChangeEvent
  now : ℤ
  outs : List LaunchOutcome
  g : TermBehavior

/-- Delivers a sequence of change events, collecting each disposition and
counting how many restart_server invocations were triggered. -/
def runChanges (s : SysState) : List ChangeIn → SysState × List Disposition × ℕ
  | [] => (s, [], 0)
  | c :: rest =>
      let r := onChange s c.ev c.now c.outs c.g
      let t := runChanges r.1 rest
      (t.1, r.2 :: t.2.1, (if r.2 = .accepted then 1 else 0) + t.2.2)

/-! Exception-flow view.  Each operation is re-read in an exception monad
whose primitives raise exactly where the platform calls of the script can
raise, so the try/except structure of the source can be checked to stop
every raise at the supervisor boundary. -/

/-- Platform exceptions the script can see.  timeoutExpired is
subprocess.TimeoutExpired; oserror covers OSError and the psutil errors;
otherExc is any other Exception subclass. -/
inductive PyExc
  | timeoutExpired
  | oserror
  | otherExc
deriving DecidableEq

/-- A Python computation: a value or an in-flight exception. -/
abbrev Py (α : Type) := Except PyExc α

/-- Which platform calls raise in a given run.  Popen.kill and the
untimed Popen.wait after it are not here: a SIGKILL to an owned child
(alive or zombie) is delivered and the following wait returns. -/
structure ExcEnv where
  /-- subprocess.Popen raises, for example OSError. -/
  popen_fails : Bool
  /-- The exception Popen raises when it does. -/
  popen_exc : PyExc
  /-- process.terminate() raises. -/
  terminate_fails : Bool
  /-- The exception terminate raises when it does. -/
  terminate_exc : PyExc
  /-- process.wait(timeout=5) times out, raising TimeoutExpired. -/
  wait_times_out : Bool
  /-- psutil.process_iter or the connection inspection raises. -/
  port_scan_fails : Bool
  /-- The exception the port scan raises when it does. -/
  port_scan_exc : PyExc
  /-- Reading the child standard output raises. -/
  readline_fails : Bool
  /-- The current process handle polls alive when kill_current_process
  runs. -/
  proc_alive : Bool
  /-- The launch, if Popen succeeds, leaves the process alive past the
  grace window. -/
  launch_ok : Bool

/-- The subprocess.Popen call of start_server line 106. -/
def popenP (env : ExcEnv) : Py Unit :=
  if env.popen_fails then .error env.popen_exc else .ok ()

/-- The process.terminate() call of kill_current_process line 156. -/
def terminateP (env : ExcEnv) : Py Unit :=
  if env.terminate_fails then .error env.terminate_exc else .ok ()

/-- The process.wait(timeout=5) call of kill_current_process line 157. -/
def waitTimeoutP (env : ExcEnv) : Py Unit :=
  if env.wait_times_out then .error .timeoutExpired else .ok ()

/-- The process.kill() and following wait() of lines 161-162: a forced
kill of an owned child completes. -/
def forceKillP : Py Unit := .ok ()

/-- The psutil iteration of kill_process_on_port lines 169-175. -/
def portScanP (env : ExcEnv) : Py Unit :=
  if env.port_scan_fails then .error env.port_scan_exc else .ok ()

/-- One read of the child standard output in monitor_output line 187. -/
def readlineP (env : ExcEnv) : Py Unit :=
  if env.readline_fails then .error .otherExc else .ok ()

/-- GradioServerManager.kill_process_on_port: the whole body is inside
try, and the except Exception clause only prints. -/
def kill_process_on_portE (env : ExcEnv) : Py Unit :=
  match portScanP env with
  | .ok _ => .ok ()
  | .error _ => .ok ()

/-- GradioServerManager.kill_current_process: terminate then the timed
wait inside try; the except subprocess.TimeoutExpired clause force kills;
the except Exception clause prints.  Nothing runs when there is no live
handle. -/
def kill_current_processE (env : ExcEnv) (alive : Bool) : Py Unit :=
  if alive then
    match (do terminateP env; waitTimeoutP env : Py Unit) with
    | .ok _ => .ok ()
    | .error .timeoutExpired => forceKillP
    | .error _ => .ok ()
  else .ok ()

/-- GradioServerManager.start_server: port sweep, Popen, grace sleep and
poll inside try; the except Exception clause prints and returns False. -/
def start_serverE (env : ExcEnv) : Py Bool :=
  match (do kill_process_on_portE env; popenP env : Py Unit) with
  | .ok _ => .ok env.launch_ok
  | .error _ => .ok false

/-- GradioServerManager.monitor_output: the read loop is inside try with
an except Exception clause that prints. -/
def monitor_outputE (env : ExcEnv) : Py Unit :=
  match readlineP env with
  | .ok _ => .ok ()
  | .error _ => .ok ()

/-- GradioServerManager.restart_server with handle_restart_failure, in
the exception view: kill the current process, start, and on False retry
down to the abandon branch, which only prints. -/
def restart_serverE (env : ExcEnv) : ℕ → Py Unit
  | 0 => .ok ()
  | n + 1 => do
      kill_current_processE env env.proc_alive
      let ok ← start_serverE env
      if ok then pure () else restart_serverE env n

/-- GradioServerManager.stop_server in the exception view. -/
def stop_serverE (env : ExcEnv) : Py Unit :=
  kill_current_processE env env.proc_alive

/-- HotReloadHandler._handle_file_change in the exception view: the
filter and debounce logic is pure, and an accepted event calls
restart_server; starting the reset_pending thread does not raise. -/
def onChangeE (env : ExcEnv) (accepted : Bool) (n : ℕ) : Py Unit :=
  if accepted then restart_serverE env n else .ok ()

/-! Basic lemmas about liveness, the invariant and kill_current_process. -/

theorem allDead_liveCount {s : MgrState} (h : AllDead s) : liveCount s = 0 := by
  unfold liveCount liveProcs
  rw [List.length_eq_zero, List.filter_eq_nil_iff]
  intro p hp
  simp [h p hp]

theorem allDead_Inv {s : MgrState} (h : AllDead s) : Inv s := by
  refine ⟨fun p hp hal => ?_, ?_⟩
  · rw [h p hp] at hal; cases hal
  · rw [allDead_liveCount h]; norm_num

theorem poll_alive_false_of_allDead {s : MgrState} (h : AllDead s) (pid : ℕ) :
    poll_alive s pid = false := by
  unfold poll_alive
  rw [Bool.eq_false_iff]
  intro hany
  rw [List.any_eq_true] at hany
  obtain ⟨p, hp, hcond⟩ := hany
  rw [h p hp] at hcond
  simp at hcond

theorem kill_id_of_allDead {s : MgrState} (h : AllDead s) :
    kill_current_process s = s := by
  unfold kill_current_process
  cases hp : s.process with
  | none => rfl
  | some pid => simp [poll_alive_false_of_allDead h]

theorem kill_allDead {s : MgrState} (h : Inv s) :
    AllDead (kill_current_process s) := by
  unfold kill_current_process
  cases hp : s.process with
  | none =>
    intro p hmem
    cases hal : p.alive
    · rfl
    · have := h.1 p hmem hal
      rw [hp] at this
      cases this
  | some pid =>
    by_cases hpoll : poll_alive s pid
    · simp only [hpoll, if_true]
      intro q hq
      simp only [mark_dead, List.mem_map] at hq
      obtain ⟨p, hp2, rfl⟩ := hq
      by_cases hpid : p.pid == pid
      · simp [hpid]
      · simp only [hpid, Bool.false_eq_true, if_false]
        cases hal : p.alive
        · rfl
        · have := h.1 p hp2 hal
          rw [hp] at this
          have : p.pid = pid := by injection this.symm
          simp [this] at hpid
    · simp only [hpoll, if_false]
      intro p hmem
      cases hal : p.alive
      · rfl
      · have hproc := h.1 p hmem hal
        rw [hp] at hproc
        have hpid : p.pid = pid := by injection hproc.symm
        have : poll_alive s pid = true := by
          unfold poll_alive
          rw [List.any_eq_true]
          exact ⟨p, hmem, by simp [hpid, hal]⟩
        simp [this] at hpoll

theorem kill_rc (s : MgrState) :
    (kill_current_process s).retry_count = s.retry_count := by
  unfold kill_current_process
  cases s.process with
  | none => rfl
  | some pid =>
    by_cases hpoll : poll_alive s pid <;> simp [hpoll]

theorem any_mark_dead (ps : List Proc) (pid : ℕ) :
    (mark_dead pid ps).any (fun p => p.pid == pid && p.alive) = false := by
  rw [Bool.eq_false_iff]
  intro hany
  rw [List.any_eq_true] at hany
  obtain ⟨q, hq, hcond⟩ := hany
  simp only [mark_dead, List.mem_map] at hq
  obtain ⟨p, _, rfl⟩ := hq
  by_cases hpid : p.pid == pid <;> simp [hpid] at hcond

theorem stop_idem (s : MgrState) :
    stop_server (stop_server s) = stop_server s := by
  unfold stop_server kill_current_process
  cases hp : s.process with
  | none => simp [hp]
  | some pid =>
    by_cases hpoll : poll_alive s pid
    · simp only [hp, hpoll, if_true]
      have hdead :
          poll_alive ⟨mark_dead pid s.os_procs, some pid, s.retry_count, s.next_pid⟩ pid
            = false := any_mark_dead s.os_procs pid
      simp [hdead]
    · simp [hp, hpoll]

/-! Lemmas about start_server. -/

theorem start_snd (o : LaunchOutcome) (s : MgrState) :
    (start_server o s).2 = decide (o = .ok) := by
  cases o <;> rfl

theorem start_rc_of_fail {o : LaunchOutcome} (ho : o ≠ .ok) (s : MgrState) :
    (start_server o s).1.retry_count = s.retry_count := by
  cases o with
  | ok => exact absurd rfl ho
  | exitsEarly => rfl
  | popenRaises => rfl

theorem start_ok_rc {o : LaunchOutcome} {s : MgrState}
    (h : (start_server o s).2 = true) : (start_server o s).1.retry_count = 0 := by
  cases o with
  | ok => rfl
  | exitsEarly => simp [start_server] at h
  | popenRaises => simp [start_server] at h

theorem start_fail_allDead {o : LaunchOutcome} {s : MgrState}
    (h : AllDead s) (ho : o ≠ .ok) : AllDead (start_server o s).1 := by
  cases o with
  | ok => exact absurd rfl ho
  | popenRaises => exact h
  | exitsEarly =>
    intro p hp
    simp only [start_server, List.mem_append, List.mem_singleton] at hp
    rcases hp with hp | rfl
    · exact h p hp
    · rfl

theorem start_allDead_Inv {s : MgrState} (h : AllDead s) (o : LaunchOutcome) :
    Inv (start_server o s).1 := by
  cases o with
  | popenRaises => exact allDead_Inv h
  | exitsEarly =>
    exact allDead_Inv (start_fail_allDead h (by simp))
  | ok =>
    constructor
    · intro p hp hal
      simp only [start_server, List.mem_append, List.mem_singleton] at hp
      rcases hp with hp | rfl
      · rw [h p hp] at hal; cases hal
      · rfl
    · unfold liveCount liveProcs
      simp only [start_server, List.filter_append]
      have hnil : s.os_procs.filter (fun p => p.alive) = [] := by
        rw [List.filter_eq_nil_iff]
        intro p hp
        simp [h p hp]
      rw [hnil]
      simp

/-! Lemmas about restartAux and restart_server. -/

theorem restartAux_rc_zero (fuel : ℕ) (outs : List LaunchOutcome) (s : MgrState) :
    (restartAux fuel outs s).1.retry_count = 0 := by
  induction fuel generalizing outs s with
  | zero => rfl
  | succ f ih =>
    simp only [restartAux]
    by_cases hok : (start_server (nextOutcome outs).1 (kill_current_process s)).2 = true
    · rw [if_pos hok]
      exact start_ok_rc hok
    · rw [if_neg hok]
      by_cases hlt :
          (start_server (nextOutcome outs).1 (kill_current_process s)).1.retry_count + 1 <
            max_retries
      · rw [if_pos hlt]
        exact ih _ _
      · rw [if_neg hlt]

theorem restartAux_trace_len (fuel : ℕ) (outs : List LaunchOutcome) (s : MgrState) :
    (restartAux fuel outs s).2.2.length ≤ fuel := by
  induction fuel generalizing outs s with
  | zero => simp [restartAux]
  | succ f ih =>
    simp only [restartAux]
    by_cases hok : (start_server (nextOutcome outs).1 (kill_current_process s)).2 = true
    · rw [if_pos hok]
      simp
    · rw [if_neg hok]
      by_cases hlt :
          (start_server (nextOutcome outs).1 (kill_current_process s)).1.retry_count + 1 <
            max_retries
      · rw [if_pos hlt]
        simpa using Nat.succ_le_succ (ih _ _)
      · rw [if_neg hlt]
        simp

theorem restartAux_trace_ne_nil {fuel : ℕ} (hf : 1 ≤ fuel)
    (outs : List LaunchOutcome) (s : MgrState) :
    (restartAux fuel outs s).2.2 ≠ [] := by
  cases fuel with
  | zero => cases hf
  | succ f =>
    simp only [restartAux]
    by_cases hok : (start_server (nextOutcome outs).1 (kill_current_process s)).2 = true
    · rw [if_pos hok]
      simp
    · rw [if_neg hok]
      by_cases hlt :
          (start_server (nextOutcome outs).1 (kill_current_process s)).1.retry_count + 1 <
            max_retries
      · rw [if_pos hlt]
        simp
      · rw [if_neg hlt]
        simp

theorem restartAux_inv (fuel : ℕ) (outs : List LaunchOutcome) {s : MgrState}
    (h : Inv s) : Inv (restartAux fuel outs s).1 := by
  induction fuel generalizing outs s with
  | zero =>
    exact ⟨fun p hp hal => h.1 p hp hal, h.2⟩
  | succ f ih =>
    simp only [restartAux]
    have hdead : AllDead (kill_current_process s) := kill_allDead h
    by_cases hok : (start_server (nextOutcome outs).1 (kill_current_process s)).2 = true
    · rw [if_pos hok]
      exact start_allDead_Inv hdead _
    · rw [if_neg hok]
      have ho : (nextOutcome outs).1 ≠ .ok := by
        intro hcon
        rw [start_snd, hcon] at hok
        simp at hok
      have hdead2 :
          AllDead (start_server (nextOutcome outs).1 (kill_current_process s)).1 :=
        start_fail_allDead hdead ho
      by_cases hlt :
          (start_server (nextOutcome outs).1 (kill_current_process s)).1.retry_count + 1 <
            max_retries
      · rw [if_pos hlt]
        exact ih _ (allDead_Inv (fun p hp => hdead2 p hp))
      · rw [if_neg hlt]
        exact allDead_Inv (fun p hp => hdead2 p hp)

theorem restartAux_abandoned_allDead (fuel : ℕ) (outs : List LaunchOutcome)
    {s : MgrState} (h : AllDead s ∨ (Inv s ∧ 1 ≤ fuel))
    (hab : (restartAux fuel outs s).2.1 = .abandoned) :
    AllDead (restartAux fuel outs s).1 := by
  induction fuel generalizing outs s with
  | zero =>
    rcases h with h | ⟨_, hf⟩
    · exact fun p hp => h p hp
    · cases hf
  | succ f ih =>
    have hdead : AllDead (kill_current_process s) := by
      rcases h with h | ⟨hi, _⟩
      · rw [kill_id_of_allDead h]; exact h
      · exact kill_allDead hi
    simp only [restartAux] at hab ⊢
    by_cases hok : (start_server (nextOutcome outs).1 (kill_current_process s)).2 = true
    · rw [if_pos hok] at hab
      cases hab
    · rw [if_neg hok] at hab ⊢
      have ho : (nextOutcome outs).1 ≠ .ok := by
        intro hcon
        rw [start_snd, hcon] at hok
        simp at hok
      have hdead2 :
          AllDead (start_server (nextOutcome outs).1 (kill_current_process s)).1 :=
        start_fail_allDead hdead ho
      by_cases hlt :
          (start_server (nextOutcome outs).1 (kill_current_process s)).1.retry_count + 1 <
            max_retries
      · rw [if_pos hlt] at hab ⊢
        exact ih _ (Or.inl (fun p hp => hdead2 p hp)) hab
      · rw [if_neg hlt]
        exact fun p hp => hdead2 p hp

theorem restartAux_attempts (fuel : ℕ) (outs : List LaunchOutcome) {s : MgrState}
    (h : Inv s) :
    ∀ a ∈ (restartAux fuel outs s).2.2,
      a.preLaunch = kill_current_process a.preKill ∧ AllDead a.preLaunch := by
  induction fuel generalizing outs s with
  | zero => simp [restartAux]
  | succ f ih =>
    simp only [restartAux]
    have hdead : AllDead (kill_current_process s) := kill_allDead h
    by_cases hok : (start_server (nextOutcome outs).1 (kill_current_process s)).2 = true
    · rw [if_pos hok]
      simp only [List.mem_singleton]
      rintro a rfl
      exact ⟨rfl, hdead⟩
    · rw [if_neg hok]
      have ho : (nextOutcome outs).1 ≠ .ok := by
        intro hcon
        rw [start_snd, hcon] at hok
        simp at hok
      have hdead2 :
          AllDead (start_server (nextOutcome outs).1 (kill_current_process s)).1 :=
        start_fail_allDead hdead ho
      by_cases hlt :
          (start_server (nextOutcome outs).1 (kill_current_process s)).1.retry_count + 1 <
            max_retries
      · rw [if_pos hlt]
        intro a ha
        simp only [List.mem_cons] at ha
        rcases ha with rfl | ha
        · exact ⟨rfl, hdead⟩
        · refine ih _ ?_ a ha
          exact allDead_Inv (fun p hp => hdead2 p hp)
      · rw [if_neg hlt]
        simp only [List.mem_singleton]
        rintro a rfl
        exact ⟨rfl, hdead⟩

theorem restartAux_all_fail (fuel : ℕ) (outs : List LaunchOutcome) (s : MgrState)
    (hbudget : s.retry_count + fuel = max_retries) (hf : 1 ≤ fuel)
    (hlen : fuel ≤ outs.length) (hfail : ∀ o ∈ outs.take fuel, o ≠ .ok) :
    (restartAux fuel outs s).2.1 = .abandoned ∧
    (restartAux fuel outs s).2.2.length = fuel := by
  induction fuel generalizing outs s with
  | zero => cases hf
  | succ f ih =>
    cases outs with
    | nil => simp at hlen
    | cons o outs2 =>
      have ho : o ≠ .ok := hfail o (by simp)
      simp only [restartAux, nextOutcome]
      have hsnd : (start_server o (kill_current_process s)).2 = false := by
        rw [start_snd]
        simp [ho]
      rw [if_neg (by simp [hsnd])]
      have hrc2 : (start_server o (kill_current_process s)).1.retry_count
          = s.retry_count := by
        rw [start_rc_of_fail ho, kill_rc]
      cases f with
      | zero =>
        have hstop : ¬ ((start_server o (kill_current_process s)).1.retry_count + 1 <
            max_retries) := by
          rw [hrc2]
          omega
        rw [if_neg hstop]
        exact ⟨rfl, rfl⟩
      | succ f2 =>
        have hgo : (start_server o (kill_current_process s)).1.retry_count + 1 <
            max_retries := by
          rw [hrc2]
          omega
        rw [if_pos hgo]
        have hrec := ih outs2
          (s := { (start_server o (kill_current_process s)).1 with
                  retry_count := (start_server o (kill_current_process s)).1.retry_count + 1 })
          (by simp only [hrc2]; omega)
          (by omega)
          (by simpa using Nat.le_of_succ_le_succ hlen)
          (fun o2 ho2 => hfail o2 (by simp [List.take_cons]; right; exact ho2))
        refine ⟨hrec.1, ?_⟩
        simpa using hrec.2

theorem restart_three_fail (m : MgrState) (o1 o2 o3 : LaunchOutcome)
    (rest : List LaunchOutcome)
    (h1 : o1 ≠ .ok) (h2 : o2 ≠ .ok) (h3 : o3 ≠ .ok) (hrc : m.retry_count = 0) :
    (restart_server (o1 :: o2 :: o3 :: rest) m).2.1 = .abandoned ∧
    (restart_server (o1 :: o2 :: o3 :: rest) m).2.2.length = 3 := by
  have hfuel : max_retries - m.retry_count = 3 := by rw [hrc]; rfl
  unfold restart_server
  rw [hfuel]
  refine restartAux_all_fail 3 _ m (by simp [hrc, max_retries]) (by norm_num) (by simp) ?_
  intro o ho
  simp only [List.take, List.mem_cons] at ho
  rcases ho with rfl | rfl | rfl | h
  · exact h1
  · exact h2
  · exact h3
  · simp at h

theorem restart_first_ok (m : MgrState) (outs : List LaunchOutcome)
    (hrc : m.retry_count = 0) (hok : (nextOutcome outs).1 = .ok) :
    restart_server outs m =
      ((start_server .ok (kill_current_process m)).1, .success,
        [⟨m, kill_current_process m, .ok⟩]) := by
  have hfuel : max_retries - m.retry_count = 3 := by rw [hrc]; rfl
  unfold restart_server
  rw [hfuel]
  simp only [restartAux, hok]
  rw [if_pos (by rw [start_snd]; simp)]

/-! Timing lemmas. -/

theorem kill_duration_nonneg {g : TermBehavior} (hwf : wfTerm g = true)
    (s : MgrState) : 0 ≤ kill_duration s g := by
  unfold kill_duration
  split
  · exact le_refl 0
  · split
    · split
      · rename_i d
        simp only [wfTerm, decide_eq_true_eq] at hwf
        split
        · exact hwf
        · norm_num [graceful_timeout]
      · norm_num [graceful_timeout]
    · exact le_refl 0

theorem kill_duration_le (s : MgrState) (g : TermBehavior) :
    kill_duration s g ≤ graceful_timeout := by
  unfold kill_duration
  split
  · norm_num [graceful_timeout]
  · split
    · split
      · rename_i d
        split
        · assumption
        · exact le_refl _
      · exact le_refl _
    · norm_num [graceful_timeout]

theorem attemptsDuration_nonneg {g : TermBehavior} (hwf : wfTerm g = true) :
    ∀ tr : List AttemptInfo, 0 ≤ attemptsDuration g tr := by
  intro tr
  induction tr with
  | nil => norm_num [attemptsDuration]
  | cons a l ih =>
    simp only [attemptsDuration]
    have h1 := kill_duration_nonneg hwf a.preKill
    have h2 : (0:ℤ) ≤ if l.isEmpty then 0 else retry_backoff := by
      split <;> norm_num [retry_backoff]
    have h3 : (0:ℤ) < settle_delay + startup_grace := by
      norm_num [settle_delay, startup_grace]
    linarith

theorem attemptsDuration_ge {g : TermBehavior} (hwf : wfTerm g = true)
    {tr : List AttemptInfo} (h : tr ≠ []) :
    settle_delay + startup_grace ≤ attemptsDuration g tr := by
  cases tr with
  | nil => exact absurd rfl h
  | cons a l =>
    simp only [attemptsDuration]
    have h1 := kill_duration_nonneg hwf a.preKill
    have h2 : (0:ℤ) ≤ if l.isEmpty then 0 else retry_backoff := by
      split <;> norm_num [retry_backoff]
    have h3 := attemptsDuration_nonneg hwf l
    linarith

theorem attemptsDuration_le (g : TermBehavior) :
    ∀ tr : List AttemptInfo, attemptsDuration g tr ≤ 130 * (tr.length : ℤ) := by
  intro tr
  induction tr with
  | nil => norm_num [attemptsDuration]
  | cons a l ih =>
    simp only [attemptsDuration, List.length_cons]
    have h1 : kill_duration a.preKill g ≤ 50 := by
      have := kill_duration_le a.preKill g
      norm_num [graceful_timeout] at this
      exact this
    have h2 : (if l.isEmpty then (0:ℤ) else retry_backoff) ≤ 30 := by
      split <;> norm_num [retry_backoff]
    have hcast : ((l.length + 1 : ℕ) : ℤ) = (l.length : ℤ) + 1 := by push_cast; ring
    rw [hcast]
    simp only [settle_delay, startup_grace]
    linarith

/-! Lemmas about the combined machine. -/

theorem fire_mgr (s : SysState) (now : ℤ) :
    (fire_pending_timer s now).mgr = s.mgr := by
  unfold fire_pending_timer
  split
  · split <;> rfl
  · rfl

theorem fire_last_reload (s : SysState) (now : ℤ) :
    (fire_pending_timer s now).handler.last_reload = s.handler.last_reload := by
  unfold fire_pending_timer
  split
  · split <;> rfl
  · rfl

theorem fire_none (s : SysState) (now : ℤ) (h : s.pending_clear_at = none) :
    fire_pending_timer s now = s := by
  unfold fire_pending_timer
  rw [h]

theorem fire_not_due {s : SysState} {ts : ℤ} (h : s.pending_clear_at = some ts)
    (now : ℤ) (hlt : now < ts) : fire_pending_timer s now = s := by
  unfold fire_pending_timer
  split
  · rename_i ts2 heq
    rw [h] at heq
    injection heq with heq2
    subst heq2
    rw [if_neg (by omega)]
  · rfl

theorem fire_due {s : SysState} {ts : ℤ} (h : s.pending_clear_at = some ts)
    (now : ℤ) (hle : ts ≤ now) :
    fire_pending_timer s now =
      { s with handler := { s.handler with pending_restart := false },
               pending_clear_at := none } := by
  unfold fire_pending_timer
  split
  · rename_i ts2 heq
    rw [h] at heq
    injection heq with heq2
    subst heq2
    rw [if_pos hle]
  · rename_i heq
    rw [h] at heq
    cases heq

theorem onChange_disp (s : SysState) (e : ChangeEvent) (now : ℤ)
    (outs : List LaunchOutcome) (g : TermBehavior) :
    (onChange s e now outs g).2 =
      (handle_file_change (fire_pending_timer s now).handler e now).2 := by
  simp only [onChange]
  split <;> rfl

theorem handle_accepted_iff (s : HandlerState) (e : ChangeEvent) (t : ℤ) :
    (handle_file_change s e t).2 = .accepted ↔
      (eligible e = true ∧ reload_delay ≤ t - s.last_reload ∧
        s.pending_restart = false) := by
  unfold handle_file_change eligible
  split_ifs with h1 h2 h3 h4 h5 <;> simp_all

theorem handle_accepted_state {s : HandlerState} {e : ChangeEvent} {t : ℤ}
    (h : (handle_file_change s e t).2 = .accepted) :
    (handle_file_change s e t).1 = ⟨t, true⟩ := by
  unfold handle_file_change at h ⊢
  split_ifs at h ⊢
  simp_all

theorem handle_dropped_of {s : HandlerState} {e : ChangeEvent} {t : ℤ}
    (helig : eligible e = true) (hdeb : t - s.last_reload < reload_delay) :
    handle_file_change s e t = (s, .droppedDebounce) := by
  unfold eligible at helig
  have h1 : e.is_directory = false := by
    rcases h : e.is_directory
    · rfl
    · simp [h] at helig
  have h2 : watchedExtension e.src_path = true := by
    rcases h : watchedExtension e.src_path
    · simp [h] at helig
    · rfl
  have h3 : excludedPath e.src_path = false := by
    rcases h : excludedPath e.src_path
    · rfl
    · simp [h] at helig
  unfold handle_file_change
  split_ifs <;> simp_all

theorem onChange_accepted_state {s : SysState} {e : ChangeEvent} {t : ℤ}
    {outs : List LaunchOutcome} {g : TermBehavior}
    (hacc : (onChange s e t outs g).2 = .accepted) :
    (onChange s e t outs g).1 =
      { handler := ⟨t, true⟩,
        mgr := (restart_server outs (fire_pending_timer s t).mgr).1,
        pending_clear_at :=
          some (t + attemptsDuration g
                  (restart_server outs (fire_pending_timer s t).mgr).2.2 +
                pending_reset_delay) } := by
  rw [onChange_disp] at hacc
  unfold onChange
  rw [if_pos hacc]
  rw [handle_accepted_state hacc]

theorem onChange_not_accepted_state {s : SysState} {e : ChangeEvent} {t : ℤ}
    {outs : List LaunchOutcome} {g : TermBehavior}
    (hacc : (onChange s e t outs g).2 ≠ .accepted) :
    (onChange s e t outs g).1 =
      { fire_pending_timer s t with
          handler := (handle_file_change (fire_pending_timer s t).handler e t).1 } := by
  rw [onChange_disp] at hacc
  unfold onChange
  rw [if_neg hacc]

theorem sysStep_inv {s : SysState} (op : SysOp) (h : Inv s.mgr) :
    Inv (sysStep s op).mgr := by
  cases op with
  | stop => exact allDead_Inv (kill_allDead h)
  | change e now outs g =>
    simp only [sysStep]
    by_cases hacc : (onChange s e now outs g).2 = .accepted
    · rw [onChange_accepted_state hacc]
      have hmgr : Inv (fire_pending_timer s now).mgr := by
        rw [fire_mgr]; exact h
      exact restartAux_inv _ _ hmgr
    · rw [onChange_not_accepted_state hacc]
      have hmgr : (fire_pending_timer s now).mgr = s.mgr := fire_mgr s now
      show Inv (fire_pending_timer s now).mgr
      rw [hmgr]; exact h

theorem runOps_inv {s : SysState} (ops : List SysOp) (h : Inv s.mgr) :
    Inv (runOps s ops).mgr := by
  induction ops generalizing s with
  | nil => exact h
  | cons op rest ih => exact ih (sysStep_inv op h)

theorem mainInit_inv (o : LaunchOutcome) : Inv (mainInit o).mgr := by
  have hdead : AllDead init_mgr := by
    intro p hp
    simp [init_mgr] at hp
  exact start_allDead_Inv hdead o

theorem restart_trace_ne_nil {m : MgrState} (hrc : m.retry_count = 0)
    (outs : List LaunchOutcome) : (restart_server outs m).2.2 ≠ [] := by
  have hfuel : max_retries - m.retry_count = 3 := by rw [hrc]; rfl
  unfold restart_server
  rw [hfuel]
  exact restartAux_trace_ne_nil (by norm_num) outs m

theorem runChanges_count (cs : List ChangeIn) (s : SysState) :
    (runChanges s cs).2.2 = (runChanges s cs).2.1.count .accepted := by
  induction cs generalizing s with
  | nil => rfl
  | cons c rest ih =>
    simp only [runChanges]
    rw [List.count_cons]
    rw [ih]
    by_cases hacc : (onChange s c.ev c.now c.outs c.g).2 = .accepted
    · simp [hacc]
      omega
    · have : ((onChange s c.ev c.now c.outs c.g).2 == Disposition.accepted) = false := by
        simp [hacc]
      simp [hacc, this]

theorem runChanges_all_dropped (cs : List ChangeIn) (s1 : SysState) (T : ℤ)
    (h1 : s1.pending_clear_at = some T)
    (hall : ∀ c ∈ cs, eligible c.ev = true ∧
      c.now - s1.handler.last_reload < reload_delay ∧ c.now < T) :
    runChanges s1 cs = (s1, cs.map (fun _ => Disposition.droppedDebounce), 0) := by
  induction cs with
  | nil => rfl
  | cons c rest ih =>
    obtain ⟨helig, hdeb, hT⟩ := hall c (by simp)
    have hfire : fire_pending_timer s1 c.now = s1 := fire_not_due h1 c.now hT
    have hh : handle_file_change s1.handler c.ev c.now = (s1.handler, .droppedDebounce) :=
      handle_dropped_of helig hdeb
    have hdisp : (onChange s1 c.ev c.now c.outs c.g).2 = .droppedDebounce := by
      rw [onChange_disp, hfire, hh]
    have hstate : (onChange s1 c.ev c.now c.outs c.g).1 = s1 := by
      rw [onChange_not_accepted_state (by rw [hdisp]; simp)]
      rw [hfire, hh]
    simp only [runChanges, hstate, hdisp]
    rw [ih (fun c2 hc2 => hall c2 (by simp [hc2]))]
    simp

theorem restartAux_order (fuel : ℕ) (outs : List LaunchOutcome) (s : MgrState) :
    ∀ a ∈ (restartAux fuel outs s).2.2,
      a.preLaunch = kill_current_process a.preKill := by
  induction fuel generalizing outs s with
  | zero => simp [restartAux]
  | succ f ih =>
    simp only [restartAux]
    by_cases hok : (start_server (nextOutcome outs).1 (kill_current_process s)).2 = true
    · rw [if_pos hok]
      simp only [List.mem_singleton]
      rintro a rfl
      rfl
    · rw [if_neg hok]
      by_cases hlt :
          (start_server (nextOutcome outs).1 (kill_current_process s)).1.retry_count + 1 <
            max_retries
      · rw [if_pos hlt]
        intro a ha
        simp only [List.mem_cons] at ha
        rcases ha with rfl | ha
        · rfl
        · exact ih _ _ a ha
      · rw [if_neg hlt]
        simp only [List.mem_singleton]
        rintro a rfl
        rfl

theorem liveCount_zero_allDead {m : MgrState} (h : liveCount m = 0) : AllDead m := by
  intro p hp
  cases hpa : p.alive
  · rfl
  · exfalso
    have hmem : p ∈ liveProcs m := List.mem_filter.mpr ⟨hp, by simp [hpa]⟩
    unfold liveCount at h
    rw [List.length_eq_zero] at h
    rw [h] at hmem
    simp at hmem

/-! Totality of the exception view. -/

theorem kill_portE_ok (env : ExcEnv) :
    kill_process_on_portE env = Except.ok () := by
  unfold kill_process_on_portE
  split <;> rfl

theorem kill_currentE_ok (env : ExcEnv) (b : Bool) :
    kill_current_processE env b = Except.ok () := by
  unfold kill_current_processE
  split
  · split <;> rfl
  · rfl

theorem start_serverE_ok (env : ExcEnv) :
    ∃ v, start_serverE env = Except.ok v := by
  unfold start_serverE
  split
  · exact ⟨env.launch_ok, rfl⟩
  · exact ⟨false, rfl⟩

theorem monitor_outputE_ok (env : ExcEnv) :
    monitor_outputE env = Except.ok () := by
  unfold monitor_outputE
  split <;> rfl

theorem restart_serverE_ok (env : ExcEnv) (n : ℕ) :
    restart_serverE env n = Except.ok () := by
  induction n with
  | zero => rfl
  | succ k ih =>
    unfold restart_serverE
    obtain ⟨v, hv⟩ := start_serverE_ok env
    simp only [kill_currentE_ok, hv, bind, Except.bind]
    cases v
    · simpa using ih
    · rfl

theorem stop_serverE_ok (env : ExcEnv) :
    stop_serverE env = Except.ok () :=
  kill_currentE_ok env env.proc_alive

theorem onChangeE_ok (env : ExcEnv) (b : Bool) (n : ℕ) :
    onChangeE env b n = Except.ok () := by
  unfold onChangeE
  split
  · exact restart_serverE_ok env n
  · rfl

theorem handle_ignored {e : ChangeEvent}
    (h : e.is_directory = true ∨ excludedPath e.src_path = true)
    (hs : HandlerState) (t : ℤ) :
    (handle_file_change hs e t).1 = hs ∧
    (handle_file_change hs e t).2 ≠ .accepted := by
  unfold handle_file_change
  split_ifs <;> simp_all

/-! Claim theorems. -/

/-- C1, counterexample: the claim orders the pending-restart check (4)
before the debounce check (5), but with a pending restart and an eligible
event one second after the last accepted one, _handle_file_change takes
the debounce early return (silent drop), not the pending-restart logging
branch the claimed order would take. -/
theorem claim_C1_counterexample :
    handle_file_change ⟨0, true⟩ ⟨"demo.py", false⟩ 10 ≠
      dispatchWith claimedCheckOrder ⟨0, true⟩ ⟨"demo.py", false⟩ 10 := by
  decide

/-- C1, amended: for every ChangeEvent, _handle_file_change applies, in
order: (1) directory events ignored, (2) unrecognized extensions ignored,
(3) excluded-segment paths ignored, (4) events inside the debounce
interval dropped, (5) with a restart pending the event is logged only,
(6) otherwise the event is accepted, the debounce clock resets at once
(the restart runs on the already-updated state) and a restart is
triggered. -/
theorem claim_C1_amended :
    (∀ (s : HandlerState) (e : ChangeEvent) (t : ℤ),
        handle_file_change s e t = dispatchWith sourceCheckOrder s e t) ∧
    (∀ (s : HandlerState) (e : ChangeEvent) (t : ℤ),
        (handle_file_change s e t).2 = .accepted →
          (handle_file_change s e t).1 = ⟨t, true⟩) ∧
    (∀ (s : SysState) (e : ChangeEvent) (t : ℤ)
        (outs : List LaunchOutcome) (g : TermBehavior),
        (onChange s e t outs g).2 = .accepted →
          (onChange s e t outs g).1.mgr =
            (restart_server outs (fire_pending_timer s t).mgr).1) :=
  ⟨handle_file_change_eq_dispatch,
   fun _ _ _ h => handle_accepted_state h,
   fun _ _ _ _ _ h => by rw [onChange_accepted_state h]⟩

/-- C1 witness: a concrete accepted event resets the debounce clock. -/
theorem claim_C1_amended_witness :
    (handle_file_change ⟨0, false⟩ ⟨"demo.py", false⟩ 100).1 = ⟨100, true⟩ :=
  claim_C1_amended.2.1 ⟨0, false⟩ ⟨"demo.py", false⟩ 100 (by decide)

/-- C7: a directory event, or an event whose path carries the
compiled-artifact exclusion, never triggers a restart: the handler
returns its state unchanged, and the whole supervisor state after
onChange is exactly what the (event-independent) reset_pending timer
alone produces, with the manager and the debounce clock untouched. -/
theorem claim_C7 (s : SysState) (e : ChangeEvent) (t : ℤ)
    (outs : List LaunchOutcome) (g : TermBehavior)
    (h : e.is_directory = true ∨ excludedPath e.src_path = true) :
    (onChange s e t outs g).2 ≠ .accepted ∧
    (∀ hs : HandlerState, (handle_file_change hs e t).1 = hs) ∧
    (onChange s e t outs g).1 = fire_pending_timer s t ∧
    (onChange s e t outs g).1.mgr = s.mgr ∧
    (onChange s e t outs g).1.handler.last_reload = s.handler.last_reload := by
  have hh := handle_ignored h (fire_pending_timer s t).handler t
  have hdisp : (onChange s e t outs g).2 ≠ .accepted := by
    rw [onChange_disp]
    exact hh.2
  have hstate : (onChange s e t outs g).1 = fire_pending_timer s t := by
    rw [onChange_not_accepted_state hdisp, hh.1]
  refine ⟨hdisp, fun hs => (handle_ignored h hs t).1, hstate, ?_, ?_⟩
  · rw [hstate, fire_mgr]
  · rw [hstate, fire_last_reload]

/-- C7 witness: a directory event is not accepted. -/
theorem claim_C7_witness :
    (onChange ⟨⟨0, false⟩, init_mgr, none⟩ ⟨"minigpt4", true⟩ 5 [] none).2 ≠
      .accepted :=
  (claim_C7 ⟨⟨0, false⟩, init_mgr, none⟩ ⟨"minigpt4", true⟩ 5 [] none
    (Or.inl rfl)).1

/-- C2: after main startup, along every sequence of change and stop
operations the manager invariant holds, so at most one spawned process is
alive at every observation point; and inside every restart, each launch
attempt runs from the state kill_current_process produced, in which no
spawned process is alive (terminate to completion, then start). -/
theorem claim_C2 :
    (∀ (o : LaunchOutcome) (ops : List SysOp),
        Inv (runOps (mainInit o) ops).mgr ∧
        liveCount (runOps (mainInit o) ops).mgr ≤ 1) ∧
    (∀ (m : MgrState) (outs : List LaunchOutcome), Inv m →
        ∀ a ∈ (restart_server outs m).2.2,
          a.preLaunch = kill_current_process a.preKill ∧
          liveCount a.preLaunch = 0) := by
  constructor
  · intro o ops
    have h := runOps_inv ops (mainInit_inv o)
    exact ⟨h, h.2⟩
  · intro m outs hm a ha
    have h := restartAux_attempts _ _ hm a ha
    exact ⟨h.1, allDead_liveCount h.2⟩

/-- C2 witness: in a concrete restart from the initial manager, the
launch point has no live process. -/
theorem claim_C2_witness :
    liveCount (AttemptInfo.mk init_mgr init_mgr .ok).preLaunch = 0 :=
  (claim_C2.2 init_mgr [.ok] (by decide) ⟨init_mgr, init_mgr, .ok⟩ (by decide)).2

/-- C3, counterexample: the claim says events after the first one of a
burst are logged; in the code an eligible event half a second after an
accepted one is dropped silently by the debounce check, which runs before
the pending-restart logging branch. -/
theorem claim_C3_counterexample :
    (runChanges ⟨⟨0, false⟩, init_mgr, none⟩
        [⟨⟨"demo.py", false⟩, 100, [.ok], none⟩,
         ⟨⟨"ui_components.py", false⟩, 105, [.ok], none⟩]).2.1 =
      [.accepted, .droppedDebounce] ∧
    Disposition.droppedDebounce ≠ Disposition.loggedPending := by
  decide

/-- C3, amended: a burst of eligible events inside one debounce interval
triggers exactly one restart, by the first event; the later events of the
burst are dropped by the debounce check without reaching the logging
branch, and do not move the debounce clock; and over any event sequence
the number of restart invocations is at most the number of accepted
dispositions. -/
theorem claim_C3_amended (s : SysState) (c0 : ChangeIn) (rest : List ChangeIn)
    (hrc : s.mgr.retry_count = 0) (hwf : wfTerm c0.g = true)
    (hacc : (onChange s c0.ev c0.now c0.outs c0.g).2 = .accepted)
    (hwin : ∀ c ∈ rest, eligible c.ev = true ∧ c0.now ≤ c.now ∧
        c.now - c0.now < reload_delay) :
    (runChanges s (c0 :: rest)).2.1 =
        .accepted :: rest.map (fun _ => Disposition.droppedDebounce) ∧
    (runChanges s (c0 :: rest)).2.2 = 1 ∧
    (runChanges s (c0 :: rest)).1.handler.last_reload = c0.now ∧
    (∀ (s2 : SysState) (cs : List ChangeIn),
        (runChanges s2 cs).2.2 ≤ (runChanges s2 cs).2.1.count .accepted) := by
  have hstate := onChange_accepted_state hacc
  have hmgr0 : (fire_pending_timer s c0.now).mgr.retry_count = 0 := by
    rw [fire_mgr]; exact hrc
  have htr := restart_trace_ne_nil hmgr0 c0.outs
  have hD : settle_delay + startup_grace ≤
      attemptsDuration c0.g
        (restart_server c0.outs (fire_pending_timer s c0.now).mgr).2.2 :=
    attemptsDuration_ge hwf htr
  have hD50 : (50:ℤ) ≤
      attemptsDuration c0.g
        (restart_server c0.outs (fire_pending_timer s c0.now).mgr).2.2 := by
    simpa [settle_delay, startup_grace] using hD
  set s1 := (onChange s c0.ev c0.now c0.outs c0.g).1 with hs1def
  have hclear : s1.pending_clear_at =
      some (c0.now +
        attemptsDuration c0.g
          (restart_server c0.outs (fire_pending_timer s c0.now).mgr).2.2 +
        pending_reset_delay) := by
    rw [hstate]
  have hlr : s1.handler.last_reload = c0.now := by
    rw [hstate]
  have hrest := runChanges_all_dropped rest s1 _ hclear (by
    intro c hc
    obtain ⟨he, hle, hlt⟩ := hwin c hc
    refine ⟨he, by rw [hlr]; omega, ?_⟩
    have : c.now < c0.now + reload_delay := by omega
    have h20 : reload_delay ≤
        attemptsDuration c0.g
          (restart_server c0.outs (fire_pending_timer s c0.now).mgr).2.2 +
        pending_reset_delay := by
      simp only [reload_delay, pending_reset_delay]
      omega
    omega)
  refine ⟨?_, ?_, ?_, fun s2 cs => le_of_eq (runChanges_count cs s2)⟩
  · simp only [runChanges, ← hs1def, hrest, hacc]
  · simp only [runChanges, ← hs1def, hrest, hacc]
    simp
  · simp only [runChanges, ← hs1def, hrest]
    exact hlr

/-- C3 witness: a concrete two-event burst produces exactly one restart. -/
theorem claim_C3_amended_witness :
    (runChanges ⟨⟨0, false⟩, init_mgr, none⟩
        [⟨⟨"demo.py", false⟩, 100, [.ok], none⟩,
         ⟨⟨"dev_server.py", false⟩, 110, [.ok], none⟩]).2.2 = 1 :=
  (claim_C3_amended ⟨⟨0, false⟩, init_mgr, none⟩
      ⟨⟨"demo.py", false⟩, 100, [.ok], none⟩
      [⟨⟨"dev_server.py", false⟩, 110, [.ok], none⟩]
      (by decide) (by decide) (by decide) (by decide)).2.1

/-- C4, counterexample: the claim has the supervisor retry a failed
launch up to 3 times before abandoning, but on the startup path of main a
single failed launch (the process exits inside the grace window) ends the
run with exit code 1 after exactly one launch attempt and no retry. -/
theorem claim_C4_counterexample :
    (main_startup .exitsEarly).2 = .failedExit 1 ∧
    (main_startup .exitsEarly).1.os_procs.length = 1 ∧
    ¬ ((main_startup .exitsEarly).1.os_procs.length = 3) ∧
    liveCount (main_startup .exitsEarly).1 = 0 := by
  decide

/-- C4, amended: on the restart path, a failing launch is retried with the
fixed 3 s backoff until 3 consecutive launch attempts have failed, at
which point the restart is abandoned (max-retries message), the retry
counter is reset to 0 and no spawned process is left alive; on the
startup path of main, a failed launch is reported at once with exit code
1, without retry, likewise leaving no process alive. -/
theorem claim_C4_amended (m : MgrState) (o1 o2 o3 : LaunchOutcome)
    (rest : List LaunchOutcome) (h1 : o1 ≠ .ok) (h2 : o2 ≠ .ok) (h3 : o3 ≠ .ok)
    (hrc : m.retry_count = 0) (hInv : Inv m) :
    (restart_server (o1 :: o2 :: o3 :: rest) m).2.1 = .abandoned ∧
    (restart_server (o1 :: o2 :: o3 :: rest) m).2.2.length = 3 ∧
    (restart_server (o1 :: o2 :: o3 :: rest) m).1.retry_count = 0 ∧
    liveCount (restart_server (o1 :: o2 :: o3 :: rest) m).1 = 0 ∧
    (∀ o : LaunchOutcome, o ≠ .ok →
        (main_startup o).2 = .failedExit 1 ∧ liveCount (main_startup o).1 = 0) := by
  have h3f := restart_three_fail m o1 o2 o3 rest h1 h2 h3 hrc
  refine ⟨h3f.1, h3f.2, ?_, ?_, ?_⟩
  · unfold restart_server
    exact restartAux_rc_zero _ _ _
  · have hdead : AllDead (restart_server (o1 :: o2 :: o3 :: rest) m).1 := by
      unfold restart_server at h3f ⊢
      exact restartAux_abandoned_allDead _ _
        (Or.inr ⟨hInv, by rw [hrc]; decide⟩) h3f.1
    exact allDead_liveCount hdead
  · intro o ho
    cases o with
    | ok => exact absurd rfl ho
    | exitsEarly => exact ⟨rfl, by decide⟩
    | popenRaises => exact ⟨rfl, by decide⟩

/-- C4 witness: three concrete failing launches abandon the restart. -/
theorem claim_C4_amended_witness :
    (restart_server [.exitsEarly, .popenRaises, .exitsEarly] init_mgr).2.1 =
      .abandoned :=
  (claim_C4_amended init_mgr .exitsEarly .popenRaises .exitsEarly []
    (by decide) (by decide) (by decide) (by decide) (by decide)).1

/-- C5: every launch attempt of a restart runs on the state left by
kill_current_process (terminate first, then start); the kill itself takes
between 0 and the 5 s graceful timeout, a live process that ignores the
graceful signal is force killed exactly at the timeout; when the first
launch succeeds the restart is one attempt, whose launch is the same
start_server sequence applied to the killed state, and the total running
time is kill + settle + grace, at most 10 s; and in general a restart
from a rested retry counter takes at most 39 s, never unbounded. -/
theorem claim_C5 (m : MgrState) (g : TermBehavior) (outs : List LaunchOutcome)
    (hrc : m.retry_count = 0) (hwf : wfTerm g = true) :
    (∀ a ∈ (restart_server outs m).2.2,
        a.preLaunch = kill_current_process a.preKill) ∧
    (0 ≤ kill_duration m g ∧ kill_duration m g ≤ graceful_timeout) ∧
    (∀ pid, m.process = some pid → poll_alive m pid = true → g = none →
        force_kill_used m g = true ∧ kill_duration m g = graceful_timeout) ∧
    ((nextOutcome outs).1 = .ok →
        restart_server outs m =
          ((start_server .ok (kill_current_process m)).1, .success,
            [⟨m, kill_current_process m, .ok⟩]) ∧
        attemptsDuration g (restart_server outs m).2.2 =
          kill_duration m g + settle_delay + startup_grace ∧
        attemptsDuration g (restart_server outs m).2.2 ≤ 100) ∧
    attemptsDuration g (restart_server outs m).2.2 ≤ 390 := by
  refine ⟨?_, ⟨kill_duration_nonneg hwf m, kill_duration_le m g⟩, ?_, ?_, ?_⟩
  · intro a ha
    unfold restart_server at ha
    exact restartAux_order _ _ _ a ha
  · intro pid hp hpoll hg
    subst hg
    constructor
    · unfold force_kill_used
      split
      · rename_i heq
        rw [hp] at heq
        cases heq
      · rename_i pid2 heq
        rw [hp] at heq
        injection heq with h2
        subst h2
        rw [hpoll]
        rfl
    · unfold kill_duration
      split
      · rename_i heq
        rw [hp] at heq
        cases heq
      · rename_i pid2 heq
        rw [hp] at heq
        injection heq with h2
        subst h2
        rw [if_pos hpoll]
  · intro hok
    have heq := restart_first_ok m outs hrc hok
    refine ⟨heq, ?_, ?_⟩
    · rw [heq]
      simp [attemptsDuration]
    · rw [heq]
      simp only [attemptsDuration, List.isEmpty_nil, if_true]
      have := kill_duration_le m g
      simp only [graceful_timeout] at this
      simp only [attemptsDuration, settle_delay, startup_grace]
      linarith
  · have hlen : ((restart_server outs m).2.2.length : ℤ) ≤ 3 := by
      have h1 : (restart_server outs m).2.2.length ≤ 3 := by
        have h2 := restartAux_trace_len (max_retries - m.retry_count) outs m
        unfold restart_server
        calc (restartAux (max_retries - m.retry_count) outs m).2.2.length
            ≤ max_retries - m.retry_count := h2
          _ ≤ 3 := by rw [hrc]; decide
      exact_mod_cast h1
    have hle := attemptsDuration_le g (restart_server outs m).2.2
    linarith

/-- C5 witness: a concrete restart of a live process that terminates
gracefully after 3 s completes within the 10 s bound. -/
theorem claim_C5_witness :
    attemptsDuration (some 30)
      (restart_server [.ok] ⟨[⟨0, true⟩], some 0, 0, 1⟩).2.2 ≤ 100 :=
  ((claim_C5 ⟨[⟨0, true⟩], some 0, 0, 1⟩ (some 30) [.ok] rfl
    (by decide)).2.2.2.1 rfl).2.2

/-- C6: stop_server is idempotent, leaves no spawned process alive, is
the identity when no process is alive, and in the exception view always
returns cleanly. -/
theorem claim_C6 (m : MgrState) (hInv : Inv m) :
    stop_server (stop_server m) = stop_server m ∧
    liveCount (stop_server m) = 0 ∧
    (liveCount m = 0 → stop_server m = m) ∧
    (∀ env : ExcEnv, stop_serverE env = Except.ok ()) := by
  refine ⟨stop_idem m, allDead_liveCount (kill_allDead hInv), ?_, stop_serverE_ok⟩
  intro h0
  exact kill_id_of_allDead (liveCount_zero_allDead h0)

/-- C6 witness: stopping the initial manager twice equals stopping it
once. -/
theorem claim_C6_witness :
    stop_server (stop_server init_mgr) = stop_server init_mgr :=
  (claim_C6 init_mgr (by decide)).1

/-- C8: in the exception view, every operation of the supervisor returns
a value rather than letting a platform exception escape: the try/except
blocks of start_server, kill_current_process, kill_process_on_port and
monitor_output convert each primitive failure into a logged outcome, and
restart_server, stop_server and the change handler are built from those
total pieces. -/
theorem claim_C8 :
    ∀ (env : ExcEnv) (b : Bool) (n : ℕ),
      (∃ v, start_serverE env = Except.ok v) ∧
      restart_serverE env n = Except.ok () ∧
      stop_serverE env = Except.ok () ∧
      onChangeE env b n = Except.ok () ∧
      kill_process_on_portE env = Except.ok () ∧
      kill_current_processE env b = Except.ok () ∧
      monitor_outputE env = Except.ok () :=
  fun env b n =>
    ⟨start_serverE_ok env, restart_serverE_ok env n, stop_serverE_ok env,
     onChangeE_ok env b n, kill_portE_ok env, kill_currentE_ok env b,
     monitor_outputE_ok env⟩

/-- C9: an accepted event at time t sets pending_restart (on the state
the restart already sees), arms the reset_pending thread for exactly one
second after restart_server returns (whatever the launch outcomes were),
pending_restart stays true at every clock reading before that firing
time and is false from it on, and an eligible event delivered at or
after the firing time is accepted again. -/
theorem claim_C9 (s : SysState) (e : ChangeEvent) (t : ℤ)
    (outs : List LaunchOutcome) (g : TermBehavior)
    (hrc : s.mgr.retry_count = 0) (hwf : wfTerm g = true)
    (hacc : (onChange s e t outs g).2 = .accepted) :
    (onChange s e t outs g).1.handler.pending_restart = true ∧
    (onChange s e t outs g).1.handler.last_reload = t ∧
    (onChange s e t outs g).1.pending_clear_at =
      some (t + attemptsDuration g
              (restart_server outs (fire_pending_timer s t).mgr).2.2 +
            pending_reset_delay) ∧
    (∀ u, u < t + attemptsDuration g
              (restart_server outs (fire_pending_timer s t).mgr).2.2 +
            pending_reset_delay →
        (fire_pending_timer (onChange s e t outs g).1 u).handler.pending_restart
          = true) ∧
    (∀ u, t + attemptsDuration g
              (restart_server outs (fire_pending_timer s t).mgr).2.2 +
            pending_reset_delay ≤ u →
        (fire_pending_timer (onChange s e t outs g).1 u).handler.pending_restart
          = false) ∧
    (∀ (u : ℤ) (e2 : ChangeEvent) (outs2 : List LaunchOutcome)
        (g2 : TermBehavior),
        t + attemptsDuration g
              (restart_server outs (fire_pending_timer s t).mgr).2.2 +
            pending_reset_delay ≤ u →
        eligible e2 = true →
        (onChange (onChange s e t outs g).1 e2 u outs2 g2).2 = .accepted) := by
  have hstate := onChange_accepted_state hacc
  have hmgr0 : (fire_pending_timer s t).mgr.retry_count = 0 := by
    rw [fire_mgr]; exact hrc
  have htr := restart_trace_ne_nil hmgr0 outs
  have hD50 : (50:ℤ) ≤ attemptsDuration g
      (restart_server outs (fire_pending_timer s t).mgr).2.2 := by
    simpa [settle_delay, startup_grace] using attemptsDuration_ge hwf htr
  have hclear : (onChange s e t outs g).1.pending_clear_at =
      some (t + attemptsDuration g
              (restart_server outs (fire_pending_timer s t).mgr).2.2 +
            pending_reset_delay) := by
    rw [hstate]
  have hpend : (onChange s e t outs g).1.handler.pending_restart = true := by
    rw [hstate]
  have hlr : (onChange s e t outs g).1.handler.last_reload = t := by
    rw [hstate]
  refine ⟨hpend, hlr, hclear, ?_, ?_, ?_⟩
  · intro u hu
    rw [fire_not_due hclear u hu]
    exact hpend
  · intro u hu
    rw [fire_due hclear u hu]
  · intro u e2 outs2 g2 hu he2
    rw [onChange_disp]
    rw [fire_due hclear u hu]
    rw [handle_accepted_iff]
    refine ⟨he2, ?_, rfl⟩
    show reload_delay ≤ u - (onChange s e t outs g).1.handler.last_reload
    rw [hlr]
    simp only [reload_delay, pending_reset_delay] at hu ⊢
    omega

/-- C9 witness: a concrete accepted event leaves the pending flag set. -/
theorem claim_C9_witness :
    (onChange ⟨⟨0, false⟩, init_mgr, none⟩ ⟨"demo.py", false⟩ 100 [.ok]
        none).1.handler.pending_restart = true :=
  (claim_C9 ⟨⟨0, false⟩, init_mgr, none⟩ ⟨"demo.py", false⟩ 100 [.ok] none
    (by decide) (by decide) (by decide)).1

/-- C10: every completed restart_server call leaves retry_count = 0 (the
abandon branch resets it, and a successful launch reset it inside
start_server); every successful start_server call leaves retry_count = 0;
and after an abandoned restart the next restart again makes the full 3
launch attempts before abandoning. -/
theorem claim_C10 :
    (∀ (outs : List LaunchOutcome) (m : MgrState),
        (restart_server outs m).1.retry_count = 0) ∧
    (∀ (o : LaunchOutcome) (m : MgrState), (start_server o m).2 = true →
        (start_server o m).1.retry_count = 0) ∧
    (∀ (m : MgrState) (outs : List LaunchOutcome)
        (o1 o2 o3 : LaunchOutcome) (rest2 : List LaunchOutcome),
        (restart_server outs m).2.1 = .abandoned →
        o1 ≠ .ok → o2 ≠ .ok → o3 ≠ .ok →
        (restart_server (o1 :: o2 :: o3 :: rest2)
            (restart_server outs m).1).2.1 = .abandoned ∧
        (restart_server (o1 :: o2 :: o3 :: rest2)
            (restart_server outs m).1).2.2.length = 3) := by
  refine ⟨?_, ?_, ?_⟩
  · intro outs m
    unfold restart_server
    exact restartAux_rc_zero _ _ _
  · intro o m h
    exact start_ok_rc h
  · intro m outs o1 o2 o3 rest2 _hab h1 h2 h3
    have hrc2 : (restart_server outs m).1.retry_count = 0 := by
      unfold restart_server
      exact restartAux_rc_zero _ _ _
    exact restart_three_fail _ o1 o2 o3 rest2 h1 h2 h3 hrc2

/-- C10 witness: after a concrete abandoned restart, the next failing
restart again makes 3 attempts. -/
theorem claim_C10_witness :
    (restart_server [.exitsEarly, .exitsEarly, .exitsEarly]
        (restart_server [.exitsEarly, .exitsEarly, .exitsEarly]
          init_mgr).1).2.2.length = 3 :=
  (claim_C10.2.2 init_mgr [.exitsEarly, .exitsEarly, .exitsEarly]
    .exitsEarly .exitsEarly .exitsEarly []
    (by decide) (by decide) (by decide) (by decide)).2

end HotReload
